import Mathlib

/-!
Verification development for the MyST reference resolver
(myst_parser/sphinx_ext/myst_refs.py): a shallow embedding of the
post-transform that resolves MyST cross-references, together with
theorems settling the specification claims about it.
-/

namespace MystRefs

/-! String and path utilities.  These model the Python (posixpath)
functions used by the source: str.lower, str.startswith, str.endswith,
str.split, str.rsplit, os.path.normpath, os.path.join, os.path.splitext,
and sphinx docname_join.  All are written by structural recursion on
character lists so that concrete inputs evaluate in the kernel. -/

def lowerChar (c : Char) : Char :=
  if 'A' ≤ c ∧ c ≤ 'Z' then Char.ofNat (c.toNat + 32) else c

def toLowerStr (s : String) : String :=
  String.mk (s.data.map lowerChar)

def isPrefixCh : List Char → List Char → Bool
  | [], _ => true
  | _ :: _, [] => false
  | a :: as, b :: bs => a = b && isPrefixCh as bs

def strStartsWith (s pre : String) : Bool := isPrefixCh pre.data s.data

def strEndsWith (s suf : String) : Bool := isPrefixCh suf.data.reverse s.data.reverse

def splitSlashAux : List Char → List Char → List (List Char)
  | [], acc => [acc.reverse]
  | c :: cs, acc =>
      if c = '/' then acc.reverse :: splitSlashAux cs []
      else splitSlashAux cs (c :: acc)

def splitSlash (s : String) : List String :=
  (splitSlashAux s.data []).map String.mk

def joinSlash : List String → String
  | [] => ""
  | [s] => s
  | s :: rest => s ++ "/" ++ joinSlash rest

def memStr (x : String) : List String → Bool
  | [] => false
  | y :: rest => if y = x then true else memStr x rest

def alookup {α : Type} {β : Type} [DecidableEq α] (key : α) :
    List (α × β) → Option β
  | [] => none
  | kv :: rest => if kv.1 = key then some kv.2 else alookup key rest

def lastIdxAux (c : Char) : List Char → Nat → Option Nat
  | [], _ => none
  | x :: xs, i =>
      match lastIdxAux c xs (i + 1) with
      | some j => some j
      | none => if x = c then some i else none

def lastIdxOf (cs : List Char) (c : Char) : Option Nat := lastIdxAux c cs 0

/-- One step of posixpath.normpath component processing. -/
def normStep (initialSlashes : Bool) (acc : List String) (comp : String) :
    List String :=
  if comp = "" ∨ comp = "." then acc
  else if comp ≠ ".." ∨ (initialSlashes = false ∧ acc = []) ∨
          (acc ≠ [] ∧ acc.getLast? = some "..") then
    acc ++ [comp]
  else if acc.isEmpty then acc
  else acc.dropLast

/-- posixpath.normpath: purely lexical path normalization. -/
def normpath (path : String) : String :=
  if path = "" then "."
  else
    let initialSlashes := strStartsWith path "/"
    let slashes : Nat :=
      if initialSlashes && strStartsWith path "//" && !(strStartsWith path "///")
      then 2
      else if initialSlashes then 1 else 0
    let comps := (splitSlash path).foldl (normStep initialSlashes) []
    let result := String.mk (List.replicate slashes '/') ++ joinSlash comps
    if result = "" then "." else result

/-- posixpath.join for a single extra component. -/
def joinOne (a b : String) : String :=
  if strStartsWith b "/" then b
  else if a = "" ∨ strEndsWith a "/" then a ++ b
  else a ++ "/" ++ b

/-- os.path.splitext (posix variant, altsep absent). -/
def splitext (p : String) : String × String :=
  let cs := p.data
  match lastIdxOf cs '.' with
  | none => (p, "")
  | some di =>
      let fstart : Nat :=
        match lastIdxOf cs '/' with
        | some s => s + 1
        | none => 0
      let sepOk : Bool :=
        match lastIdxOf cs '/' with
        | some s => decide (s < di)
        | none => true
      if sepOk then
        if ((cs.drop fstart).take (di - fstart)).any (fun ch => ch ≠ '.') then
          (String.mk (cs.take di), String.mk (cs.drop di))
        else (p, "")
      else (p, "")

/-- Python target.rsplit with separator "#" and maxsplit 1; none when the
string has no hash character (the "#" not in target test). -/
def rsplitHash (s : String) : Option (String × String) :=
  match lastIdxOf s.data '#' with
  | none => none
  | some i => some (String.mk (s.data.take i), String.mk (s.data.drop (i + 1)))

/-- sphinx.util.docname_join. -/
def docname_join (base doc : String) : String :=
  String.mk ((normpath (joinOne (joinOne ("/" ++ base) "..") doc)).data.drop 1)

def upToColon : List Char → List Char
  | [] => []
  | c :: cs => if c = ':' then [] else c :: upToColon cs

/-- Python res_role.split with separator ":" taking element 0. -/
def roleDomainPart (s : String) : String := String.mk (upToColon s.data)

/-- Python res_role.replace of ":" by "-". -/
def replaceColonDash (s : String) : String :=
  String.mk (s.data.map (fun c => if c = ':' then '-' else c))

/-! Data model.

Inline content nested inside a link (node[0].children of the
pending_xref); kept flat, enough to distinguish rich structure from a
flattened string. -/

inductive Inline where
  | text (s : String)
  | emph (s : String)
  | strong (s : String)
deriving Repr, DecidableEq

def Inline.astext : Inline → String
  | .text s => s
  | .emph s => s
  | .strong s => s

def astextInlines (l : List Inline) : String :=
  l.foldl (fun acc i => acc ++ i.astext) ""

/-- A docutils TextElement such as nodes.inline: rawsource, classes
attribute and child inline nodes. -/
structure Inner where
  raw : String
  classes : List String
  children : List Inline
deriving Repr, DecidableEq

/-- The reference data attached by sphinx.util.nodes.make_refnode. -/
structure RefInfo where
  fromdoc : String
  todoc : String
  labelid : String
deriving Repr, DecidableEq

/-- A child of a candidate element node: docutils Text or Element. -/
inductive Child where
  | text (s : String)
  | elem (e : Inner)
deriving Repr, DecidableEq

def Child.astext : Child → String
  | .text s => s
  | .elem e => astextInlines e.children

/-- A candidate element node: either built through make_refnode (refinfo
present) or returned by a domain. -/
structure CNode where
  refinfo : Option RefInfo
  reftitle : Option String
  children : List Child
deriving Repr, DecidableEq

def astextCNode (n : CNode) : String :=
  n.children.foldl (fun acc c => acc ++ c.astext) ""

/-- sphinx.util.nodes.make_refnode: a reference element wrapping the
given child element. -/
def make_refnode (fromdocname docname labelid : String) (child : Inner) :
    CNode :=
  { refinfo := some { fromdoc := fromdocname, todoc := docname, labelid := labelid },
    reftitle := none,
    children := [Child.elem child] }

/-- A pending_xref placeholder node.  child models node[0], the
TextElement holding the link content. -/
structure Xref where
  reftype : String
  reftarget : String
  refdoc : Option String
  refexplicit : Bool
  refwarn : Bool
  child : Inner
deriving Repr, DecidableEq

/-- node.astext of the placeholder: concatenated text of its content. -/
def xrefAstext (node : Xref) : String := astextInlines node.child.children

/-- Diagnostics the resolver can emit through the sphinx logger. -/
inductive Warning where
  | ambiguity (target : String) (candidates : List (String × String))
  | domainNoResolveAny (moduleName : String) (domainName : String)
  | missingRef (refdoc : String) (reftype : String) (target : String)
deriving Repr, DecidableEq

/-- The standard domain as consumed by the resolver: ordered object
kinds, the object index keyed by kind and name, and the role resolved
for each kind. -/
structure StdDomain where
  object_types : List String
  objects : List ((String × String) × (String × String))
  roleFor : List (String × String)

/-- A non-standard domain as consumed by the resolver.  hasResolveAny
false models a resolve_any_xref that raises NotImplementedError; the
resolveAny capability may signal NoUri (the error case). -/
structure Domain where
  name : String
  moduleName : String
  hasResolveAny : Bool
  resolveAny : String → Except Unit (List (String × CNode))
  roles : List String
  resolveXref : String → String → Option CNode

/-- The build environment and configuration consumed by the resolver. -/
structure Env where
  labels : List (String × (String × String × String))
  anonlabels : List (String × (String × String))
  all_docs : List String
  titles : String → String
  source_suffix : List String
  myst_heading_anchors : Option Nat
  myst_ref_domains : Option (List String)
  std : StdDomain
  domains : List Domain
  doc2path : String → String
  nitpicky : Bool

/-! The resolver functions, translated from MystReferenceResolver. -/

/-- The lookup key of _resolve_ref_nested: target or
node reftarget lower-cased (Python target or node reftarget .lower()). -/
def refNestedKey (node : Xref) (target? : Option String) : String :=
  match target? with
  | some t => if t = "" then toLowerStr node.reftarget else t
  | none => toLowerStr node.reftarget

/-- nodes.inline with rawsource and text both equal to sectname: a text
child is present only when the text is nonempty. -/
def implicitInner (sectname : String) : Inner :=
  { raw := sectname, classes := [],
    children := if sectname = "" then [] else [Inline.text sectname] }

/-- MystReferenceResolver._resolve_ref_nested.  A lookup miss behaves as
an entry with empty docname (the Python dict get with an empty default
followed by the truthiness test on docname), so both are mapped to none. -/
def resolve_ref_nested (env : Env) (node : Xref) (fromdocname : String)
    (target? : Option String) : Option CNode :=
  if node.refexplicit then
    match alookup (refNestedKey node target?) env.anonlabels with
    | none => none
    | some dl =>
        if dl.1 = "" then none
        else some (make_refnode fromdocname dl.1 dl.2
          { raw := xrefAstext node, classes := [],
            children := node.child.children })
  else
    match alookup (refNestedKey node target?) env.labels with
    | none => none
    | some dls =>
        if dls.1 = "" then none
        else some (make_refnode fromdocname dls.1 dls.2.1
          (implicitInner dls.2.2))

/-- The document-path component computed by _resolve_anchor for the part
of the target before the fragment. -/
def anchorDocPath (env : Env) (node : Xref) (fromdocname relPath : String) :
    String :=
  if normpath relPath = "." then env.doc2path (node.refdoc.getD fromdocname)
  else normpath (joinOne (joinOne (node.refdoc.getD fromdocname) "..")
    (normpath relPath))

/-- MystReferenceResolver._resolve_anchor. -/
def resolve_anchor (env : Env) (node : Xref) (fromdocname : String) :
    Option CNode :=
  if env.myst_heading_anchors = none then none
  else
    match rsplitHash node.reftarget with
    | none => none
    | some pa =>
        resolve_ref_nested env node fromdocname
          (some (anchorDocPath env node fromdocname pa.1 ++ "#" ++ pa.2))

/-- The single strip-and-retry of _resolve_doc_nested: when the joined
name is not a known document and its extension is a configured source
suffix, the suffix is stripped. -/
def docRetryName (env : Env) (docname : String) : String :=
  if memStr docname env.all_docs = false ∧
     memStr (splitext docname).2 env.source_suffix = true
  then (splitext docname).1 else docname

/-- The node built by _resolve_doc_nested for a resolved document name. -/
def docNode (env : Env) (node : Xref) (fromdocname docname : String) :
    Option CNode :=
  if memStr docname env.all_docs = false then none
  else if node.refexplicit then
    some (make_refnode fromdocname docname ""
      { raw := xrefAstext node, classes := ["doc"],
        children := node.child.children })
  else
    some (make_refnode fromdocname docname ""
      { raw := env.titles docname, classes := ["doc"],
        children := if env.titles docname = "" then []
                    else [Inline.text (env.titles docname)] })

/-- MystReferenceResolver._resolve_doc_nested. -/
def resolve_doc_nested (env : Env) (node : Xref) (fromdocname : String) :
    Option CNode :=
  docNode env node fromdocname
    (docRetryName env
      (docname_join (node.refdoc.getD fromdocname) node.reftarget))

/-- The anchor or label or doc candidates of resolve_myst_ref: when the
anchor resolves it is the only candidate of this tier, otherwise label
and doc resolution are both attempted and both appended. -/
def baseResults (env : Env) (node : Xref) (refdoc : String) :
    List (String × CNode) :=
  match resolve_anchor env node refdoc with
  | some res => [("std:doc", res)]
  | none =>
      (match resolve_ref_nested env node refdoc none with
       | some res => [("std:ref", res)]
       | none => []) ++
      (match resolve_doc_nested env node refdoc with
       | some res => [("std:doc", res)]
       | none => [])

/-- The lookup key for the standard-domain object index: lower-cased
exactly for the term kind. -/
def stdKey (objtype target : String) : String × String :=
  if objtype = "term" then (objtype, toLowerStr target) else (objtype, target)

/-- stddomain.role_for_objtype, formatted as Python does (None prints as
the string None). -/
def roleForStr (std : StdDomain) (objtype : String) : String :=
  match alookup objtype std.roleFor with
  | some r => r
  | none => "None"

/-- The standard-domain object candidates of resolve_myst_ref. -/
def stdObjectCandidates (env : Env) (refdoc target : String) (cont : Inner) :
    List (String × CNode) :=
  env.std.object_types.filterMap (fun objtype =>
    match alookup (stdKey objtype target) env.std.objects with
    | some doclbl =>
        some ("std:" ++ roleForStr env.std objtype,
              make_refnode refdoc doclbl.1 doclbl.2 cont)
    | none => none)

/-- The standard-domain tier, guarded by the myst_ref_domains allow-list. -/
def stdResults (env : Env) (refdoc target : String) (cont : Inner) :
    List (String × CNode) :=
  match env.myst_ref_domains with
  | none => stdObjectCandidates env refdoc target cont
  | some ds =>
      if memStr "std" ds then stdObjectCandidates env refdoc target cont
      else []

/-- Whether a domain participates given the myst_ref_domains allow-list. -/
def domainAllowed (env : Env) (d : Domain) : Bool :=
  match env.myst_ref_domains with
  | none => true
  | some ds => memStr d.name ds

/-- The Python truthiness test on a resolve_xref result before it is
appended: nonempty children with an Element first. -/
def goodFirstChild (n : CNode) : Bool :=
  match n.children with
  | Child.elem _ :: _ => true
  | _ => false

/-- The per-role degraded lookup over a noncompliant domain. -/
def perRoleResults (d : Domain) (target : String) : List (String × CNode) :=
  d.roles.filterMap (fun role =>
    match d.resolveXref role target with
    | some res =>
        if goodFirstChild res then some (d.name ++ ":" ++ role, res) else none
    | none => none)

/-- The dedup key of the once-per-domain warning (the logged message is
determined by the domain module and name). -/
def domainOnceKey (d : Domain) : String := d.moduleName ++ "::" ++ d.name

/-- Whether the once-per-domain noncompliance warning fires: the domain
is not a sphinx built-in and its message has not been logged before. -/
def domainWarned (once : List String) (d : Domain) : Bool :=
  !(strStartsWith d.moduleName "sphinx.") && !(memStr (domainOnceKey d) once)

/-- Processing of one registered domain inside resolve_myst_ref.  State
is (collected results, emitted warnings, once-logged message keys); the
error case is a NoUri signal escaping the capability call. -/
def domainStep (env : Env) (target : String)
    (st : List (String × CNode) × List Warning × List String) (d : Domain) :
    Except (List Warning × List String)
      (List (String × CNode) × List Warning × List String) :=
  if d.name = "std" then .ok st
  else if domainAllowed env d = false then .ok st
  else if d.hasResolveAny then
    match d.resolveAny target with
    | .error _ => .error (st.2.1, st.2.2)
    | .ok newRs => .ok (st.1 ++ newRs, st.2.1, st.2.2)
  else
    .ok (st.1 ++ perRoleResults d target,
         (if domainWarned st.2.2 d then
            st.2.1 ++ [Warning.domainNoResolveAny d.moduleName d.name]
          else st.2.1),
         (if domainWarned st.2.2 d then st.2.2 ++ [domainOnceKey d]
          else st.2.2))

/-- The loop over registered domains inside resolve_myst_ref. -/
def domainsFold (env : Env) (target : String) :
    List Domain → List (String × CNode) × List Warning × List String →
    Except (List Warning × List String)
      (List (String × CNode) × List Warning × List String)
  | [], st => .ok st
  | d :: ds, st =>
      match domainStep env target st d with
      | .error e => .error e
      | .ok st2 => domainsFold env target ds st2

/-- All candidates collected by resolve_myst_ref, in insertion order:
anchor or (label then doc), then standard-domain objects, then the other
domains in registration order. -/
def collectResults (env : Env) (refdoc : String) (node : Xref) (cont : Inner)
    (once : List String) :
    Except (List Warning × List String)
      (List (String × CNode) × List Warning × List String) :=
  domainsFold env node.reftarget env.domains
    (baseResults env node refdoc ++ stdResults env refdoc node.reftarget cont,
     [], once)

/-- The display text used in the ambiguity diagnostic for one candidate:
reftitle if present, otherwise the astext of the node. -/
def describeCandidate (p : String × CNode) : String × String :=
  (p.1, p.2.reftitle.getD (astextCNode p.2))

/-- The styling-class attachment applied to the selected node: classes
are appended to the first child when it is an Element. -/
def addClasses (n : CNode) (c1 c2 : String) : CNode :=
  match n.children with
  | Child.elem e :: rest =>
      { n with children :=
          Child.elem { e with classes := e.classes ++ [c1, c2] } :: rest }
  | _ => n

/-- The node finally returned for the selected candidate, tagged with
the winning domain and role as styling classes. -/
def finishNode (p : String × CNode) : CNode :=
  addClasses p.2 (roleDomainPart p.1) (replaceColonDash p.1)

/-- Candidate selection: none for an empty list, otherwise the first
candidate, with one ambiguity diagnostic when there is more than one. -/
def selectResult (target : String) (results : List (String × CNode))
    (ws : List Warning) : Option CNode × List Warning :=
  match results with
  | [] => (none, ws)
  | r :: rest =>
      (some (finishNode r),
       if rest.isEmpty then ws
       else ws ++ [Warning.ambiguity target ((r :: rest).map describeCandidate)])

/-- MystReferenceResolver.resolve_myst_ref.  Returns the resolved node
if any, the warnings logged, and the updated once-logged set; the error
case is a NoUri signal escaping a capability call (with the warnings
logged before it). -/
def resolve_myst_ref (env : Env) (refdoc : String) (node : Xref)
    (cont : Inner) (once : List String) :
    Except (List Warning × List String)
      (Option CNode × List Warning × List String) :=
  match collectResults env refdoc node cont once with
  | .error e => .error e
  | .ok st =>
      .ok ((selectResult node.reftarget st.1 st.2.1).1,
           (selectResult node.reftarget st.1 st.2.1).2, st.2.2)

/-! The run layer: iteration over placeholders, the missing-reference
fallback chain, and in-tree replacement. -/

/-- A missing-reference handler: receives the placeholder (with its
reftype already switched) and the content node; may signal NoUri. -/
abbrev Handler := Xref → Inner → Except Unit (Option CNode)

/-- app.emit_firstresult for the missing-reference event: handlers run
in registration order, the first non-empty result wins, a NoUri raised
by a handler propagates. -/
def emit_firstresult : List Handler → Xref → Inner →
    Except Unit (Option CNode)
  | [], _, _ => .ok none
  | h :: rest, node, cont =>
      match h node cont with
      | .error e => .error e
      | .ok (some r) => .ok (some r)
      | .ok none => emit_firstresult rest node cont

def setReftype (x : Xref) (t : String) : Xref := { x with reftype := t }

/-- The fallback dispatch of run: the reftype is switched to any for the
event, and switched back to myst afterwards (the try or finally block),
whatever the outcome.  Returns the event result and the node state after
the finally clause. -/
def fallbackWithReftype (handlers : List Handler) (node : Xref)
    (cont : Inner) : Except Unit (Option CNode) × Xref :=
  (emit_firstresult handlers (setReftype node "any") cont,
   setReftype (setReftype node "any") "myst")

/-- The application state consumed by run: environment, current document
name and the registered missing-reference handlers. -/
structure App where
  env : Env
  docname : String
  handlers : List Handler

/-- A node of the document tree as seen by run. -/
inductive TreeNode where
  | pending (x : Xref)
  | other (tag : String)
  | resolvedRef (n : CNode)
  | content (c : Inner)
deriving Repr, DecidableEq

/-- Processing of one myst placeholder by run: resolve, fall back to the
missing-reference chain, warn if still unresolved, and produce the
replacement node.  NoUri anywhere degrades silently to the content. -/
def processXref (app : App) (once : List String) (node : Xref) :
    TreeNode × List Warning × List String :=
  match resolve_myst_ref app.env (node.refdoc.getD app.docname) node
      node.child once with
  | .error e => (TreeNode.content node.child, e.1, e.2)
  | .ok (some newnode, ws, o) => (TreeNode.resolvedRef newnode, ws, o)
  | .ok (none, ws, o) =>
      match (fallbackWithReftype app.handlers node node.child).1 with
      | .error _ => (TreeNode.content node.child, ws, o)
      | .ok (some newnode) => (TreeNode.resolvedRef newnode, ws, o)
      | .ok none =>
          (TreeNode.content node.child,
           ws ++ (if app.env.nitpicky || node.refwarn then
                    [Warning.missingRef (node.refdoc.getD app.docname) "myst"
                      node.reftarget]
                  else []),
           o)

/-- Processing of one tree node by run: only pending_xref nodes of the
myst reftype are touched. -/
def processNode (app : App) (once : List String) :
    TreeNode → TreeNode × List Warning × List String
  | TreeNode.pending x =>
      if x.reftype = "myst" then processXref app once x
      else (TreeNode.pending x, [], once)
  | t => (t, [], once)

/-- MystReferenceResolver.run over a document tree, threading the
once-logged set and collecting the emitted warnings. -/
def runDoc (app : App) : List TreeNode → List String →
    List TreeNode × List Warning × List String
  | [], once => ([], [], once)
  | t :: rest, once =>
      let p := processNode app once t
      let q := runDoc app rest p.2.2
      (p.1 :: q.1, p.2.1 ++ q.2.1, q.2.2)

/-- Whether a warning is the domain-noncompliance one. -/
def isDomainWarning : Warning → Bool
  | Warning.domainNoResolveAny _ _ => true
  | _ => false

/-- Whether a warning list contains an ambiguity diagnostic. -/
def hasAmbiguityWarning (ws : List Warning) : Bool :=
  ws.any (fun w =>
    match w with
    | Warning.ambiguity _ _ => true
    | _ => false)

/-- The warnings carried by a resolve_myst_ref outcome. -/
def warningsOf :
    Except (List Warning × List String)
      (Option CNode × List Warning × List String) → List Warning
  | .error e => e.1
  | .ok st => st.2.1

/-- The selected node of a resolve_myst_ref outcome: none when the call
signalled NoUri. -/
def selectedOf :
    Except (List Warning × List String)
      (Option CNode × List Warning × List String) → Option (Option CNode)
  | .error _ => none
  | .ok st => some st.1

/-- The inline children of the first child element of a candidate node:
the label content of a resolved reference. -/
def firstChildChildren (n : CNode) : Option (List Inline) :=
  match n.children with
  | Child.elem e :: _ => some e.children
  | _ => none

/-- The relation between a tree node before and after the pass: a myst
placeholder becomes a resolved reference or its own plain content, and
every other node is untouched. -/
def replacedOnce : TreeNode → TreeNode → Prop
  | TreeNode.pending x, out =>
      if x.reftype = "myst" then
        (∃ n, out = TreeNode.resolvedRef n) ∨ out = TreeNode.content x.child
      else out = TreeNode.pending x
  | TreeNode.other t, out => out = TreeNode.other t
  | TreeNode.resolvedRef n, out => out = TreeNode.resolvedRef n
  | TreeNode.content c, out => out = TreeNode.content c

/-! Concrete inputs used by the witnesses and counterexamples. -/

def emptyStd : StdDomain :=
  { object_types := [], objects := [], roleFor := [] }

def baseEnv : Env :=
  { labels := [], anonlabels := [], all_docs := [],
    titles := fun _ => "", source_suffix := [".md"],
    myst_heading_anchors := none, myst_ref_domains := none,
    std := emptyStd, domains := [],
    doc2path := fun d => d ++ ".md", nitpicky := false }

def baseXref : Xref :=
  { reftype := "myst", reftarget := "", refdoc := none,
    refexplicit := false, refwarn := false,
    child := { raw := "", classes := [], children := [] } }

/-- Anchor target that also collides with a standard-domain object. -/
def envC1 : Env :=
  { baseEnv with
    myst_heading_anchors := some 2,
    labels := [("doc1.md#head", ("doc1", "head", "Head"))],
    all_docs := ["index", "doc1"],
    std := { object_types := ["label"],
             objects := [(("label", "doc1.md#head"), ("doc2", "lbl"))],
             roleFor := [("label", "ref")] } }

def nodeC1 : Xref := { baseXref with reftarget := "doc1.md#head" }

def anchorResC1 : CNode :=
  make_refnode "index" "doc1" "head"
    { raw := "Head", classes := [], children := [Inline.text "Head"] }

/-- Target matching both a label and a standard-domain option. -/
def envC2 : Env :=
  { baseEnv with
    labels := [("setup", ("doc1", "setup-label", "Setup"))],
    all_docs := ["index"],
    std := { object_types := ["option"],
             objects := [(("option", "setup"), ("doc2", "cmdoption-setup"))],
             roleFor := [("option", "option")] } }

def nodeC2 : Xref :=
  { baseXref with
    reftarget := "setup",
    child := { raw := "setup", classes := [], children := [Inline.text "setup"] } }

def candA : String × CNode :=
  ("std:ref",
   make_refnode "index" "doc1" "setup-label"
     { raw := "Setup", classes := [], children := [Inline.text "Setup"] })

def candB : String × CNode :=
  ("std:option", make_refnode "index" "doc2" "cmdoption-setup" nodeC2.child)

/-- Explicit nested content with a registry entry whose display text
differs. -/
def envC4 : Env :=
  { baseEnv with
    anonlabels := [("target1", ("docA", "lbl"))],
    labels := [("target1", ("docA", "lbl", "Registry Title"))] }

def nodeC4 : Xref :=
  { baseXref with
    reftarget := "target1",
    refexplicit := true,
    child := { raw := "**bold**", classes := [],
               children := [Inline.strong "bold"] } }

def rC4 : CNode :=
  make_refnode "index" "docA" "lbl"
    { raw := "bold", classes := [], children := [Inline.strong "bold"] }

/-- Mixed-case target registered under its lower-cased form, with no
term kind anywhere. -/
def envC5 : Env :=
  { baseEnv with labels := [("mylabel", ("doc1", "mylabel", "My Section"))] }

def nodeC5 : Xref := { baseXref with reftarget := "MyLabel" }

/-- A domain whose resolveAny capability signals NoUri. -/
def domC6 : Domain :=
  { name := "ext", moduleName := "ext_pkg.mod", hasResolveAny := true,
    resolveAny := fun _ => .error (), roles := [],
    resolveXref := fun _ _ => none }

def envC6 : Env :=
  { baseEnv with domains := [domC6], nitpicky := true }

def nodeC6 : Xref :=
  { baseXref with
    reftarget := "external",
    refwarn := true,
    child := { raw := "external", classes := [],
               children := [Inline.text "external"] } }

def appC6 : App := { env := envC6, docname := "index", handlers := [] }

/-- Fallback chain: the first handler yields nothing, the second one
resolves. -/
def cNodeY : CNode :=
  { refinfo := none, reftitle := some "ext-thing",
    children := [Child.elem { raw := "x", classes := [], children := [] }] }

def handlerA : Handler := fun _ _ => .ok none

def handlerB : Handler := fun _ _ => .ok (some cNodeY)

def nodeC7 : Xref := { baseXref with reftarget := "external-thing" }

def contC7 : Inner := nodeC7.child

/-- Document target with a source suffix needing one strip-and-retry. -/
def envC8 : Env :=
  { baseEnv with
    all_docs := ["index", "intro"],
    titles := fun d => if d = "intro" then "Intro Title" else "" }

def nodeC8 : Xref := { baseXref with reftarget := "./intro.md" }

/-- The anchored-reference scenario of the spec. -/
def envC9 : Env :=
  { baseEnv with
    myst_heading_anchors := some 2,
    labels := [("guide/intro.md#overview", ("guide/intro", "overview", "Overview"))],
    all_docs := ["guide/start", "guide/intro"] }

def nodeC9 : Xref := { baseXref with reftarget := "./intro.md#overview" }

/-- A noncompliant external domain answering one role. -/
def cNodeX : CNode :=
  { refinfo := none, reftitle := none,
    children := [Child.elem { raw := "t", classes := [], children := [] }] }

def domC10 : Domain :=
  { name := "custom", moduleName := "custom_pkg.domain", hasResolveAny := false,
    resolveAny := fun _ => .ok [], roles := ["role1"],
    resolveXref := fun role target =>
      if role = "role1" ∧ target = "thing" then some cNodeX else none }

def envC10 : Env := { baseEnv with domains := [domC10] }

/-! Shared lemmas about the domain loop. -/

theorem domainStep_ok_results (env : Env) (target : String)
    (st st2 : List (String × CNode) × List Warning × List String)
    (d : Domain) (h : domainStep env target st d = .ok st2) :
    ∃ t, st2.1 = st.1 ++ t := by
  unfold domainStep at h
  split at h
  · injection h with h2
    subst h2
    exact ⟨[], (List.append_nil _).symm⟩
  · split at h
    · injection h with h2
      subst h2
      exact ⟨[], (List.append_nil _).symm⟩
    · split at h
      · split at h
        · cases h
        · injection h with h2
          subst h2
          exact ⟨_, rfl⟩
      · injection h with h2
        subst h2
        exact ⟨_, rfl⟩

theorem domainStep_error_eq (env : Env) (target : String)
    (st : List (String × CNode) × List Warning × List String)
    (d : Domain) (e : List Warning × List String)
    (h : domainStep env target st d = .error e) :
    e = (st.2.1, st.2.2) := by
  unfold domainStep at h
  split at h
  · cases h
  · split at h
    · cases h
    · split at h
      · split at h
        · injection h with h2
          exact h2.symm
        · cases h
      · cases h

theorem domainStep_ok_warnings (env : Env) (target : String)
    (st st2 : List (String × CNode) × List Warning × List String)
    (d : Domain) (h : domainStep env target st d = .ok st2)
    (hw : st.2.1.all isDomainWarning = true) :
    st2.2.1.all isDomainWarning = true := by
  unfold domainStep at h
  split at h
  · injection h with h2
    subst h2
    exact hw
  · split at h
    · injection h with h2
      subst h2
      exact hw
    · split at h
      · split at h
        · cases h
        · injection h with h2
          subst h2
          exact hw
      · injection h with h2
        subst h2
        by_cases hwarn : domainWarned st.2.2 d = true
        · simp only [hwarn, if_true]
          simp [List.all_append, hw, isDomainWarning]
        · simp only [Bool.not_eq_true] at hwarn
          simp only [hwarn, Bool.false_eq_true, if_false]
          exact hw

theorem domainsFold_ok_results (env : Env) (target : String) :
    ∀ (ds : List Domain)
      (st out : List (String × CNode) × List Warning × List String),
      domainsFold env target ds st = .ok out → ∃ t, out.1 = st.1 ++ t := by
  intro ds
  induction ds with
  | nil =>
      intro st out h
      injection h with h2
      subst h2
      exact ⟨[], (List.append_nil _).symm⟩
  | cons d ds ih =>
      intro st out h
      unfold domainsFold at h
      cases hst : domainStep env target st d with
      | error e => rw [hst] at h; cases h
      | ok st2 =>
          rw [hst] at h
          obtain ⟨t2, ht2⟩ := ih st2 out h
          obtain ⟨t1, ht1⟩ := domainStep_ok_results env target st st2 d hst
          exact ⟨t1 ++ t2, by rw [ht2, ht1, List.append_assoc]⟩

theorem domainsFold_warnings (env : Env) (target : String) :
    ∀ (ds : List Domain)
      (st : List (String × CNode) × List Warning × List String),
      st.2.1.all isDomainWarning = true →
      (∀ out, domainsFold env target ds st = .ok out →
         out.2.1.all isDomainWarning = true) ∧
      (∀ e, domainsFold env target ds st = .error e →
         e.1.all isDomainWarning = true) := by
  intro ds
  induction ds with
  | nil =>
      intro st hw
      constructor
      · intro out h
        injection h with h2
        subst h2
        exact hw
      · intro e h
        cases h
  | cons d ds ih =>
      intro st hw
      constructor
      · intro out h
        unfold domainsFold at h
        cases hst : domainStep env target st d with
        | error e => rw [hst] at h; cases h
        | ok st2 =>
            rw [hst] at h
            exact (ih st2 (domainStep_ok_warnings env target st st2 d hst hw)).1
              out h
      · intro e h
        unfold domainsFold at h
        cases hst : domainStep env target st d with
        | error e2 =>
            rw [hst] at h
            injection h with h2
            subst h2
            rw [domainStep_error_eq env target st d e2 hst]
            exact hw
        | ok st2 =>
            rw [hst] at h
            exact (ih st2 (domainStep_ok_warnings env target st st2 d hst hw)).2
              e h

theorem collectResults_warnings (env : Env) (refdoc : String) (node : Xref)
    (cont : Inner) (once : List String) :
    (∀ out, collectResults env refdoc node cont once = .ok out →
       out.2.1.all isDomainWarning = true) ∧
    (∀ e, collectResults env refdoc node cont once = .error e →
       e.1.all isDomainWarning = true) := by
  unfold collectResults
  exact domainsFold_warnings env node.reftarget env.domains _ rfl

theorem resolve_myst_ref_ok (env : Env) (refdoc : String) (node : Xref)
    (cont : Inner) (once : List String)
    (st : List (String × CNode) × List Warning × List String)
    (hc : collectResults env refdoc node cont once = .ok st) :
    resolve_myst_ref env refdoc node cont once =
      .ok ((selectResult node.reftarget st.1 st.2.1).1,
           (selectResult node.reftarget st.1 st.2.1).2, st.2.2) := by
  unfold resolve_myst_ref
  rw [hc]

theorem resolve_myst_ref_error (env : Env) (refdoc : String) (node : Xref)
    (cont : Inner) (once : List String) (e : List Warning × List String)
    (hc : collectResults env refdoc node cont once = .error e) :
    resolve_myst_ref env refdoc node cont once = .error e := by
  unfold resolve_myst_ref
  rw [hc]

theorem resolve_myst_ref_error_inv (env : Env) (refdoc : String) (node : Xref)
    (cont : Inner) (once : List String) (e : List Warning × List String)
    (h : resolve_myst_ref env refdoc node cont once = .error e) :
    collectResults env refdoc node cont once = .error e := by
  cases hc : collectResults env refdoc node cont once with
  | error e2 =>
      rw [resolve_myst_ref_error env refdoc node cont once e2 hc] at h
      injection h with h2
      subst h2
      rfl
  | ok st =>
      rw [resolve_myst_ref_ok env refdoc node cont once st hc] at h
      cases h

theorem resolve_ok_none_warnings (env : Env) (refdoc : String) (node : Xref)
    (cont : Inner) (once : List String) (ws : List Warning) (o : List String)
    (h : resolve_myst_ref env refdoc node cont once = .ok (none, ws, o)) :
    ws.all isDomainWarning = true := by
  cases hc : collectResults env refdoc node cont once with
  | error e =>
      rw [resolve_myst_ref_error env refdoc node cont once e hc] at h
      cases h
  | ok st =>
      obtain ⟨rs, ws2, o2⟩ := st
      rw [resolve_myst_ref_ok env refdoc node cont once _ hc] at h
      cases rs with
      | nil =>
          have hw := (collectResults_warnings env refdoc node cont once).1 _ hc
          injection h with h2
          have hws : ws2 = ws := congrArg (fun p => p.2.1) h2
          rw [← hws]
          exact hw
      | cons r rs2 =>
          injection h with h2
          have h3 : (selectResult node.reftarget (r :: rs2) ws2).1 = none :=
            congrArg (fun p => p.1) h2
          simp [selectResult] at h3

/-- Claim C1, counterexample to the original statement: in the concrete
environment envC1 the anchor resolution succeeds, yet the
standard-domain object search still runs and contributes a second
candidate, so an ambiguity diagnostic is emitted for a successfully
anchor-resolved target. -/
theorem C1_counterexample :
    (resolve_anchor envC1 nodeC1 "index").isSome = true ∧
    hasAmbiguityWarning
      (warningsOf (resolve_myst_ref envC1 "index" nodeC1 nodeC1.child [])) =
      true :=
  ⟨rfl, rfl⟩

/-- Claim C1, amended: when anchor resolution succeeds, named-label and
document resolution are skipped and the anchor result is the sole
candidate of that tier and the first collected overall, so whenever
resolution completes without a NoUri signal the selected node is the
anchor result; the standard-domain and other-domain searches still run
and may add candidates after it. -/
theorem C1_anchor_first_selected (env : Env) (refdoc : String) (node : Xref)
    (cont : Inner) (once : List String) (a : CNode)
    (h : resolve_anchor env node refdoc = some a) :
    baseResults env node refdoc = [("std:doc", a)] ∧
    (selectedOf (resolve_myst_ref env refdoc node cont once) = none ∨
     selectedOf (resolve_myst_ref env refdoc node cont once) =
       some (some (finishNode ("std:doc", a)))) := by
  have hbase : baseResults env node refdoc = [("std:doc", a)] := by
    unfold baseResults
    rw [h]
  refine ⟨hbase, ?_⟩
  cases hc : collectResults env refdoc node cont once with
  | error e =>
      left
      rw [resolve_myst_ref_error env refdoc node cont once e hc]
      rfl
  | ok st =>
      right
      rw [resolve_myst_ref_ok env refdoc node cont once st hc]
      obtain ⟨t, ht⟩ :=
        domainsFold_ok_results env node.reftarget env.domains _ st hc
      rw [hbase] at ht
      simp only [selectedOf]
      rw [ht]
      rfl

/-- Claim C1 witness: the amended statement evaluated on envC1. -/
theorem C1_anchor_first_selected_witness :
    resolve_anchor envC1 nodeC1 "index" = some anchorResC1 ∧
    baseResults envC1 nodeC1 "index" = [("std:doc", anchorResC1)] ∧
    selectedOf (resolve_myst_ref envC1 "index" nodeC1 nodeC1.child []) =
      some (some (finishNode ("std:doc", anchorResC1))) := by
  have h := C1_anchor_first_selected envC1 "index" nodeC1 nodeC1.child []
    anchorResC1 (by rfl)
  refine ⟨rfl, h.1, ?_⟩
  rcases h.2 with h2 | h2
  · exact absurd h2 (by decide)
  · exact h2

/-- Claim C2: with two or more collected candidates, resolve_myst_ref
emits exactly one ambiguity diagnostic naming every candidate with its
domain-role tag and display text, selects the first candidate of the
insertion order, the selection never depends on the later candidates,
and the insertion order is anchor-label-doc, then standard-domain
objects, then the other domains. -/
theorem C2_ambiguity_first_wins (env : Env) (refdoc : String) (node : Xref)
    (cont : Inner) (once : List String) (r : String × CNode)
    (rest : List (String × CNode)) (ws : List Warning) (o : List String)
    (h : collectResults env refdoc node cont once = .ok (r :: rest, ws, o))
    (hne : rest ≠ []) :
    resolve_myst_ref env refdoc node cont once =
      .ok (some (finishNode r),
           ws ++ [Warning.ambiguity node.reftarget
                    ((r :: rest).map describeCandidate)], o) ∧
    ws.all isDomainWarning = true ∧
    (∀ (rest2 : List (String × CNode)) (ws2 : List Warning),
       (selectResult node.reftarget (r :: rest2) ws2).1 =
         some (finishNode r)) ∧
    (∃ t, r :: rest =
       baseResults env node refdoc ++
         stdResults env refdoc node.reftarget cont ++ t) := by
  have hemp : rest.isEmpty = false := by
    cases rest with
    | nil => exact absurd rfl hne
    | cons x xs => rfl
  refine ⟨?_, ?_, ?_, ?_⟩
  · rw [resolve_myst_ref_ok env refdoc node cont once _ h]
    simp only [selectResult, hemp, Bool.false_eq_true, if_false]
  · exact (collectResults_warnings env refdoc node cont once).1 _ h
  · intro rest2 ws2
    rfl
  · obtain ⟨t, ht⟩ :=
      domainsFold_ok_results env node.reftarget env.domains _ _ h
    dsimp only at ht
    refine ⟨t, ?_⟩
    rw [ht, List.append_assoc]

/-- Claim C2 witness: the label-and-option scenario, with the ambiguity
diagnostic naming both candidates and the label candidate selected. -/
theorem C2_ambiguity_first_wins_witness :
    resolve_myst_ref envC2 "index" nodeC2 nodeC2.child [] =
      .ok (some (finishNode candA),
           [] ++ [Warning.ambiguity "setup"
                    ([candA, candB].map describeCandidate)], []) := by
  have h := C2_ambiguity_first_wins envC2 "index" nodeC2 nodeC2.child []
    candA [candB] [] [] (by rfl) (by decide)
  exact h.1

theorem processXref_shape (app : App) (once : List String) (x : Xref) :
    (∃ n, (processXref app once x).1 = TreeNode.resolvedRef n) ∨
    (processXref app once x).1 = TreeNode.content x.child := by
  unfold processXref
  cases h1 : resolve_myst_ref app.env (x.refdoc.getD app.docname) x x.child
      once with
  | error e => exact Or.inr rfl
  | ok st =>
      obtain ⟨res, ws, o⟩ := st
      cases res with
      | some nn => exact Or.inl ⟨nn, rfl⟩
      | none =>
          cases h2 : (fallbackWithReftype app.handlers x x.child).1 with
          | error e => exact Or.inr rfl
          | ok r =>
              cases r with
              | some nn => exact Or.inl ⟨nn, rfl⟩
              | none => exact Or.inr rfl

/-- Claim C3: the pass maps the tree pointwise; every myst placeholder
is replaced exactly once, by a resolved reference node or by its own
plain content, and is never left in the tree; every other node is kept
unchanged. -/
theorem C3_replaced_exactly_once (app : App) (doc : List TreeNode)
    (once : List String) :
    List.Forall₂ replacedOnce doc (runDoc app doc once).1 := by
  induction doc generalizing once with
  | nil => exact List.Forall₂.nil
  | cons t rest ih =>
      refine List.Forall₂.cons ?_ (ih _)
      cases t with
      | pending x =>
          by_cases hx : x.reftype = "myst"
          · simp only [processNode, replacedOnce, hx, if_true]
            exact processXref_shape app once x
          · simp only [processNode, replacedOnce, hx, if_false]
      | other s => exact rfl
      | resolvedRef n => exact rfl
      | content c => exact rfl

/-- Claim C4: when the placeholder carries explicit nested content, the
label of the node produced by named-label or document resolution is that
content itself, spliced in structurally, whatever the registry display
text or document title holds. -/
theorem C4_explicit_content_preserved (env : Env) (node : Xref)
    (fromdocname : String) (target? : Option String) (r1 r2 : CNode)
    (hexp : node.refexplicit = true) :
    (resolve_ref_nested env node fromdocname target? = some r1 →
       firstChildChildren r1 = some node.child.children) ∧
    (resolve_doc_nested env node fromdocname = some r2 →
       firstChildChildren r2 = some node.child.children) := by
  constructor
  · intro h
    unfold resolve_ref_nested at h
    rw [hexp] at h
    simp only [if_true] at h
    split at h
    · cases h
    · split at h
      · cases h
      · injection h with h2
        subst h2
        rfl
  · intro h
    unfold resolve_doc_nested docNode at h
    rw [hexp] at h
    simp only [if_true] at h
    split at h
    · cases h
    · injection h with h2
      subst h2
      rfl

/-- Claim C4 witness: strong markup survives resolution verbatim even
though the registry stores a different display text. -/
theorem C4_explicit_content_preserved_witness :
    resolve_ref_nested envC4 nodeC4 "index" none = some rC4 ∧
    firstChildChildren rC4 = some nodeC4.child.children :=
  ⟨rfl,
   (C4_explicit_content_preserved envC4 nodeC4 "index" none rC4 rC4 rfl).1
     rfl⟩

/-- Claim C5, counterexample to the original statement: the target
MyLabel denotes a plain section label (there is no term kind anywhere in
envC5), yet the named-label lookup succeeds only because the key was
lower-cased, so case folding is not restricted to term-like kinds. -/
theorem C5_counterexample :
    (resolve_ref_nested envC5 nodeC5 "index" none).isSome = true ∧
    alookup "MyLabel" envC5.labels = none ∧
    envC5.std.object_types = [] :=
  ⟨rfl, rfl, rfl⟩

/-- Claim C5, amended: the named-label lookup key is the lower-cased
target for every placeholder, independent of any kind, while the
standard-domain object-index key is lower-cased exactly for the term
kind. -/
theorem C5_casefold_amended (node : Xref) (objtype target : String)
    (h : objtype ≠ "term") :
    refNestedKey node none = toLowerStr node.reftarget ∧
    stdKey objtype target = (objtype, target) ∧
    stdKey "term" target = ("term", toLowerStr target) := by
  refine ⟨rfl, ?_, rfl⟩
  unfold stdKey
  rw [if_neg h]

/-- Claim C5 witness: the amended statement evaluated at the option kind
and a mixed-case target. -/
theorem C5_casefold_amended_witness :
    refNestedKey nodeC5 none = toLowerStr nodeC5.reftarget ∧
    stdKey "option" "ABC" = ("option", "ABC") ∧
    stdKey "term" "ABC" = ("term", "abc") := by
  have h := C5_casefold_amended nodeC5 "option" "ABC" (by decide)
  exact ⟨h.1, h.2.1, h.2.2.trans (by decide)⟩

/-- Claim C6: a NoUri signal, whether raised during candidate collection
or by the fallback handler chain, is caught inside the per-placeholder
processing: the placeholder is replaced by its own plain content, the
only warnings are the domain-compliance ones already logged (so no
unresolved-reference diagnostic is emitted for it), and no fault
escapes. -/
theorem C6_nouri_silent_degrade (app : App) (node : Xref)
    (once : List String) (ws : List Warning) (o : List String)
    (hty : node.reftype = "myst") :
    (resolve_myst_ref app.env (node.refdoc.getD app.docname) node node.child
        once = .error (ws, o) →
      processNode app once (TreeNode.pending node) =
        (TreeNode.content node.child, ws, o) ∧
      ws.all isDomainWarning = true) ∧
    (resolve_myst_ref app.env (node.refdoc.getD app.docname) node node.child
        once = .ok (none, ws, o) →
      (fallbackWithReftype app.handlers node node.child).1 = .error () →
      processNode app once (TreeNode.pending node) =
        (TreeNode.content node.child, ws, o) ∧
      ws.all isDomainWarning = true) := by
  constructor
  · intro h
    constructor
    · simp only [processNode, hty, if_true]
      unfold processXref
      rw [h]
    · exact (collectResults_warnings app.env (node.refdoc.getD app.docname)
        node node.child once).2 _
        (resolve_myst_ref_error_inv app.env (node.refdoc.getD app.docname)
          node node.child once (ws, o) h)
  · intro h hfb
    constructor
    · simp only [processNode, hty, if_true]
      unfold processXref
      rw [h, hfb]
    · exact resolve_ok_none_warnings app.env (node.refdoc.getD app.docname)
        node node.child once ws o h

/-- Claim C6 witness: a domain signalling NoUri makes the placeholder
degrade to its plain content with no diagnostic, even in nitpicky mode
and with refwarn set. -/
theorem C6_nouri_silent_degrade_witness :
    processNode appC6 [] (TreeNode.pending nodeC6) =
      (TreeNode.content nodeC6.child, [], []) :=
  ((C6_nouri_silent_degrade appC6 nodeC6 [] [] [] rfl).1 (by rfl)).1

/-- Claim C7: when no strategy produced a candidate, the fallback chain
is invoked with the reftype temporarily switched to any, handlers run in
order with the first non-empty result winning, and the reftype is
restored to its original value afterwards, also when a handler raises. -/
theorem C7_fallback_chain (handlers : List Handler) (h1 : Handler)
    (rest : List Handler) (node : Xref) (cont : Inner) (r : CNode)
    (hty : node.reftype = "myst") (hh : handlers = h1 :: rest) :
    (fallbackWithReftype handlers node cont).1 =
      emit_firstresult handlers (setReftype node "any") cont ∧
    (h1 (setReftype node "any") cont = .ok none →
       (fallbackWithReftype handlers node cont).1 =
         emit_firstresult rest (setReftype node "any") cont) ∧
    (h1 (setReftype node "any") cont = .ok (some r) →
       (fallbackWithReftype handlers node cont).1 = .ok (some r)) ∧
    (h1 (setReftype node "any") cont = .error () →
       (fallbackWithReftype handlers node cont).1 = .error () ∧
       (fallbackWithReftype handlers node cont).2.reftype = node.reftype) ∧
    (fallbackWithReftype handlers node cont).2.reftype = node.reftype := by
  subst hh
  have hrestore :
      (fallbackWithReftype (h1 :: rest) node cont).2.reftype =
        node.reftype := by
    rw [hty]
    rfl
  have hcons : ∀ (res : Except Unit (Option CNode)),
      h1 (setReftype node "any") cont = res →
      emit_firstresult (h1 :: rest) (setReftype node "any") cont =
        (match res with
         | Except.error e => Except.error e
         | Except.ok (some r2) => Except.ok (some r2)
         | Except.ok none =>
             emit_firstresult rest (setReftype node "any") cont) := by
    intro res hres
    show (match h1 (setReftype node "any") cont with
          | Except.error e => Except.error e
          | Except.ok (some r2) => Except.ok (some r2)
          | Except.ok none =>
              emit_firstresult rest (setReftype node "any") cont) =
      _
    rw [hres]
  refine ⟨rfl, ?_, ?_, ?_, hrestore⟩
  · intro hnone
    exact hcons _ hnone
  · intro hsome
    exact hcons _ hsome
  · intro herr
    exact ⟨hcons _ herr, hrestore⟩

/-- Claim C7 witness: the spec scenario with two handlers where the
first yields nothing and the second resolves; the result is what the
second handler produced and the reftype is restored. -/
theorem C7_fallback_chain_witness :
    (fallbackWithReftype [handlerA, handlerB] nodeC7 contC7).1 =
      .ok (some cNodeY) ∧
    (fallbackWithReftype [handlerA, handlerB] nodeC7 contC7).2.reftype =
      nodeC7.reftype := by
  have h := C7_fallback_chain [handlerA, handlerB] handlerA [handlerB]
    nodeC7 contC7 cNodeY rfl rfl
  refine ⟨?_, h.2.2.2.2⟩
  rw [h.2.1 rfl]
  rfl

theorem docNode_none (env : Env) (node : Xref) (fromdocname dn : String)
    (hm : memStr dn env.all_docs = false) :
    docNode env node fromdocname dn = none := by
  unfold docNode
  rw [if_pos hm]

theorem docNode_some (env : Env) (node : Xref) (fromdocname dn : String)
    (hm : memStr dn env.all_docs = true) :
    ∃ r, docNode env node fromdocname dn = some r ∧
      r.refinfo = some ⟨fromdocname, dn, ""⟩ := by
  unfold docNode
  rw [if_neg (by simp [hm])]
  by_cases hexp : node.refexplicit = true
  · rw [hexp]
    simp only [if_true]
    exact ⟨_, rfl, rfl⟩
  · rw [Bool.not_eq_true] at hexp
    rw [hexp]
    simp only [Bool.false_eq_true, if_false]
    exact ⟨_, rfl, rfl⟩

/-- Claim C8: document resolution joins the target against the referring
document, retries exactly once with the configured source suffix
stripped when the joined name is unknown and carries such a suffix,
yields no candidate when the final name is still unknown, and on success
the produced reference points at the resolved document. -/
theorem C8_doc_resolution (env : Env) (node : Xref) (fromdocname d0 : String)
    (h0 : d0 = docname_join (node.refdoc.getD fromdocname) node.reftarget) :
    (memStr d0 env.all_docs = true → docRetryName env d0 = d0) ∧
    (memStr d0 env.all_docs = false →
       memStr (splitext d0).2 env.source_suffix = true →
       docRetryName env d0 = (splitext d0).1) ∧
    (memStr d0 env.all_docs = false →
       memStr (splitext d0).2 env.source_suffix = false →
       docRetryName env d0 = d0 ∧
       resolve_doc_nested env node fromdocname = none) ∧
    (memStr (docRetryName env d0) env.all_docs = false →
       resolve_doc_nested env node fromdocname = none) ∧
    (memStr (docRetryName env d0) env.all_docs = true →
       ∃ r, resolve_doc_nested env node fromdocname = some r ∧
         r.refinfo = some ⟨fromdocname, docRetryName env d0, ""⟩) := by
  have hres : resolve_doc_nested env node fromdocname =
      docNode env node fromdocname (docRetryName env d0) := by
    rw [h0]
    rfl
  have hr0 : memStr d0 env.all_docs = false →
      memStr (splitext d0).2 env.source_suffix = false →
      docRetryName env d0 = d0 := by
    intro _ hs
    unfold docRetryName
    split
    · rename_i hc
      rw [hs] at hc
      exact absurd hc.2 (by decide)
    · rfl
  refine ⟨?_, ?_, ?_, ?_, ?_⟩
  · intro hm
    unfold docRetryName
    split
    · rename_i hc
      rw [hm] at hc
      exact absurd hc.1 (by decide)
    · rfl
  · intro hm hs
    unfold docRetryName
    split
    · rfl
    · rename_i hc
      exact absurd ⟨hm, hs⟩ hc
  · intro hm hs
    refine ⟨hr0 hm hs, ?_⟩
    rw [hres, hr0 hm hs]
    exact docNode_none env node fromdocname d0 hm
  · intro hm
    rw [hres]
    exact docNode_none env node fromdocname _ hm
  · intro hm
    rw [hres]
    exact docNode_some env node fromdocname _ hm

/-- Claim C8 witness: ./intro.md from index joins to intro.md, which is
unknown, so the md suffix is stripped once and the document intro is
found. -/
theorem C8_doc_resolution_witness :
    docname_join "index" "./intro.md" = "intro.md" ∧
    memStr "intro.md" envC8.all_docs = false ∧
    docRetryName envC8 "intro.md" = "intro" ∧
    (∃ r, resolve_doc_nested envC8 nodeC8 "index" = some r ∧
       r.refinfo = some ⟨"index", "intro", ""⟩) := by
  have h := C8_doc_resolution envC8 nodeC8 "index" "intro.md" (by decide)
  refine ⟨by decide, rfl, h.2.1 rfl rfl, ?_⟩
  obtain ⟨r, hr1, hr2⟩ := h.2.2.2.2 (by rfl)
  exact ⟨r, hr1, hr2.trans (by decide)⟩

/-- Claim C9: anchor parsing splits at the last fragment separator,
normalizes the path purely lexically (a dot path resolving to the
referring document own path, any other relative path resolving against
its containing directory), and looks the combined path-hash-anchor key
up in the label registry; when anchor support is disabled by
configuration the resolution is never attempted. -/
theorem C9_anchor_parsing (env : Env) (node : Xref) (fromdocname p a : String)
    (hsplit : rsplitHash node.reftarget = some (p, a)) :
    (env.myst_heading_anchors = none →
       resolve_anchor env node fromdocname = none) ∧
    (env.myst_heading_anchors ≠ none →
       resolve_anchor env node fromdocname =
         resolve_ref_nested env node fromdocname
           (some (anchorDocPath env node fromdocname p ++ "#" ++ a))) ∧
    (normpath p = "." →
       anchorDocPath env node fromdocname p =
         env.doc2path (node.refdoc.getD fromdocname)) ∧
    (normpath p ≠ "." →
       anchorDocPath env node fromdocname p =
         normpath (joinOne (joinOne (node.refdoc.getD fromdocname) "..")
           (normpath p))) := by
  refine ⟨?_, ?_, ?_, ?_⟩
  · intro hd
    unfold resolve_anchor
    rw [if_pos hd]
  · intro hd
    unfold resolve_anchor
    rw [if_neg hd, hsplit]
  · intro hd
    unfold anchorDocPath
    rw [if_pos hd]
  · intro hd
    unfold anchorDocPath
    rw [if_neg hd]

/-- Claim C9 witness: the spec scenario, a relative anchored target from
guide/start resolved through the key guide/intro.md#overview. -/
theorem C9_anchor_parsing_witness :
    rsplitHash "./intro.md#overview" = some ("./intro.md", "overview") ∧
    anchorDocPath envC9 nodeC9 "guide/start" "./intro.md" =
      "guide/intro.md" ∧
    resolve_anchor envC9 nodeC9 "guide/start" =
      resolve_ref_nested envC9 nodeC9 "guide/start"
        (some (anchorDocPath envC9 nodeC9 "guide/start" "./intro.md" ++ "#" ++
          "overview")) := by
  have h := C9_anchor_parsing envC9 nodeC9 "guide/start" "./intro.md"
    "overview" (by decide)
  exact ⟨by decide, by decide, h.2.1 (by decide)⟩

theorem memStr_append_self (x : String) (l : List String) :
    memStr x (l ++ [x]) = true := by
  induction l with
  | nil =>
      show memStr x [x] = true
      unfold memStr
      rw [if_pos rfl]
  | cons y ys ih =>
      show memStr x (y :: (ys ++ [x])) = true
      unfold memStr
      split
      · rfl
      · exact ih

/-- Claim C10: a domain without the resolve-any capability is queried
per role as a degraded fallback over every role it exposes; the
noncompliance warning is emitted at most once per domain, never for a
sphinx built-in domain, and once its message is recorded a later
occurrence adds no further warning. -/
theorem C10_noncompliant_domain (env : Env) (target : String)
    (rs : List (String × CNode)) (ws : List Warning) (once : List String)
    (d : Domain) (hstd : d.name ≠ "std") (hallow : domainAllowed env d = true)
    (hna : d.hasResolveAny = false) :
    domainStep env target (rs, ws, once) d =
      .ok (rs ++ perRoleResults d target,
           (if domainWarned once d then
              ws ++ [Warning.domainNoResolveAny d.moduleName d.name]
            else ws),
           (if domainWarned once d then once ++ [domainOnceKey d]
            else once)) ∧
    (strStartsWith d.moduleName "sphinx." = true →
       domainWarned once d = false) ∧
    (memStr (domainOnceKey d) once = true → domainWarned once d = false) ∧
    (domainWarned once d = true →
       memStr (domainOnceKey d)
         (if domainWarned once d then once ++ [domainOnceKey d] else once) =
         true) := by
  refine ⟨?_, ?_, ?_, ?_⟩
  · unfold domainStep
    rw [if_neg hstd, if_neg (by simp [hallow]), hna]
    simp only [Bool.false_eq_true, if_false]
  · intro hb
    unfold domainWarned
    rw [hb]
    rfl
  · intro hm
    simp [domainWarned, hm]
  · intro hw
    rw [if_pos hw]
    exact memStr_append_self _ _

/-- Claim C10 witness: a custom noncompliant domain warned exactly once,
while a second occurrence with the message already logged adds no
warning though the per-role candidate is still collected. -/
theorem C10_noncompliant_domain_witness :
    domainStep envC10 "thing" ([], [], []) domC10 =
      .ok ([("custom:role1", cNodeX)],
           [Warning.domainNoResolveAny "custom_pkg.domain" "custom"],
           ["custom_pkg.domain::custom"]) ∧
    domainStep envC10 "thing" ([], [], ["custom_pkg.domain::custom"])
        domC10 =
      .ok ([("custom:role1", cNodeX)], [], ["custom_pkg.domain::custom"]) := by
  have g1 := (C10_noncompliant_domain envC10 "thing" [] [] [] domC10
    (by decide) (by rfl) (by rfl)).1
  have g2 := (C10_noncompliant_domain envC10 "thing" [] []
    ["custom_pkg.domain::custom"] domC10 (by decide) (by rfl) (by rfl)).1
  exact ⟨g1.trans (by rfl), g2.trans (by rfl)⟩

end MystRefs
